import Mathlib

/-!
# Verification of the EDA2 power-controller specification against its source

Shallow embedding of the relevant parts of `eda2.py`, `eda2cmd.py` and
`eda2-nagios.py` (the MWATelescope/eda2_power repository).  Machine bytes are
`Nat`, floating-point arithmetic is modelled exactly over `ℚ`, I2C/SPI bus
failures are modelled by explicit boolean oracles (`true` = the write/read
succeeded, `false` = the underlying call raised `IOError`), and GPIO traffic is
modelled as an explicit trace of operations.
-/

/-- Python's `str.upper()` for the ASCII strings handled here, written over
the string's character list so that it evaluates by kernel reduction. -/
def pyUpper (s : String) : String := ⟨s.data.map Char.toUpper⟩

/-- Python's `str.startswith(p)`, over the character lists. -/
def strStartsWith (s p : String) : Bool := p.data.isPrefixOf s.data

/-- Python's slice `s[n:]`, over the character lists. -/
def strDrop (s : String) (n : ℕ) : String := ⟨s.data.drop n⟩

namespace Eda2

/-- GPIO pin numbers from `eda2.py` (bit 0/1/2 of the address on the 74X138
3-to-8 decoder, plus its enable line). -/
def CS_DECODE_A : ℕ := 31

/-- Bit 1 of the 74X138 address. -/
def CS_DECODE_B : ℕ := 32

/-- Bit 2 of the 74X138 address. -/
def CS_DECODE_C : ℕ := 33

/-- Enable line of the 74X138 decoder. -/
def CS_DECODE_ENABLE : ℕ := 37

/-- The static `CHIPMAP` table of `eda2.py` (lines 95–114): for each output
name, the tuple `(con_chan, chipnum, v_chan, i_chan)` — control-bit position
1–16 on the owning PCA6416A expander, MCP3208 chip number 0–7, and the voltage
and current ADC channels 0–7. -/
def CHIPMAP : List (String × ℕ × ℕ × ℕ × ℕ) :=
  [("A1", 10, 7, 0, 1), ("A2",  9, 7, 2, 3),
   ("A3",  2, 6, 0, 1), ("A4",  1, 6, 2, 3),
   ("A5", 10, 5, 0, 1), ("A6",  9, 5, 2, 3),
   ("A7",  2, 4, 0, 1), ("A8",  1, 4, 2, 3),
   ("B1", 12, 7, 4, 5), ("B2", 11, 7, 6, 7),
   ("B3",  4, 6, 4, 5), ("B4",  3, 6, 6, 7),
   ("B5", 12, 5, 4, 5), ("B6", 11, 5, 6, 7),
   ("B7",  4, 4, 4, 5), ("B8",  3, 4, 6, 7),
   ("C1", 14, 0, 0, 1), ("C2", 13, 0, 2, 3),
   ("C3",  6, 1, 0, 1), ("C4",  5, 1, 2, 3),
   ("C5", 14, 2, 0, 1), ("C6", 13, 2, 2, 3),
   ("C7",  6, 3, 0, 1), ("C8",  5, 3, 2, 3),
   ("D1", 16, 0, 4, 5), ("D2", 15, 0, 6, 7),
   ("D3",  8, 1, 4, 5), ("D4",  7, 1, 6, 7),
   ("D5", 16, 2, 4, 5), ("D6", 15, 2, 6, 7),
   ("D7",  8, 3, 4, 5), ("D8",  7, 3, 6, 7)]

/-- Dictionary lookup in `CHIPMAP` (Python `CHIPMAP[name]`, `name in CHIPMAP`). -/
def chipmapLookup (name : String) : Option (ℕ × ℕ × ℕ × ℕ) :=
  (CHIPMAP.find? (fun e => e.1 == name)).map (·.2)

/-- The 32 output names, in the insertion order used by `init()`
(`for letter in ['A','B','C','D']: for number in range(1, 9)`), which is also
the listing order of `CHIPMAP`. -/
def allNames : List String := CHIPMAP.map (·.1)

/-- The slot digit of a two-character output name (`int(name[1])` in
`Antenna.__init__`). -/
def slotDigit (name : String) : ℕ :=
  match name.toList with
  | _ :: c :: _ => c.toNat - '0'.toNat
  | _ => 0

/-- Which `I2C_Control` instance owns an output
(`Antenna.__init__`: `if int(name[1]) > 4: self.pcontrol = PC1 else: PC2`). -/
def pcontrolOf (name : String) : ℕ :=
  if slotDigit name > 4 then 1 else 2

/-- Model of `I2C_Control._write_outputs`: writes bytes `p1`, `p2` to the PCA6416A
output register and returns `True` on success, `False` when the underlying
`SMBUS.write_i2c_block_data` raises `IOError`.  The boolean oracle `busOK`
models whether that bus transaction succeeds. -/
def write_outputs (busOK : Bool) (_p1 _p2 : ℕ) : Bool := busOK

/-- Byte for port 1 of the PCA6416A, from `int('%d%d%d%d%d%d%d%d' %
tuple(self.portmap[:8]), 2)` — portmap entry 0 is the most significant bit. -/
def p1_of (pm : Fin 16 → ℕ) : ℕ :=
  128 * pm 0 + 64 * pm 1 + 32 * pm 2 + 16 * pm 3 +
    8 * pm 4 + 4 * pm 5 + 2 * pm 6 + pm 7

/-- Byte for port 2 of the PCA6416A (portmap entries 8–15, MSB first). -/
def p2_of (pm : Fin 16 → ℕ) : ℕ :=
  128 * pm 8 + 64 * pm 9 + 32 * pm 10 + 16 * pm 11 +
    8 * pm 12 + 4 * pm 13 + 2 * pm 14 + pm 15

/-- Model of `I2C_Control.turnon(channel)`: reject channels outside 1–16, otherwise set
`portmap[channel-1] = 1` and write the whole recomputed bitmap with
`_write_outputs`.  Returns the success flag together with the resulting
in-memory portmap.  Note that the source performs no rollback of `portmap`
when `_write_outputs` fails. -/
def i2c_turnon (busOK : Bool) (channel : ℕ) (pm : Fin 16 → ℕ) :
    Bool × (Fin 16 → ℕ) :=
  if h : channel < 1 ∨ 16 < channel then (false, pm)
  else
    let pm2 := Function.update pm ⟨channel - 1, by omega⟩ 1
    (write_outputs busOK (p1_of pm2) (p2_of pm2), pm2)

/-- Model of `I2C_Control.turnoff(channel)`: identical to `turnon` but clears the bit. -/
def i2c_turnoff (busOK : Bool) (channel : ℕ) (pm : Fin 16 → ℕ) :
    Bool × (Fin 16 → ℕ) :=
  if h : channel < 1 ∨ 16 < channel then (false, pm)
  else
    let pm2 := Function.update pm ⟨channel - 1, by omega⟩ 0
    (write_outputs busOK (p1_of pm2) (p2_of pm2), pm2)

/-- The control-bit position (1–16) an output name is routed to, i.e. the
`con_chan` field its `Antenna` receives from `CHIPMAP` (0 for unknown names,
which never occur in `OUTPUTS`). -/
def conChanD (name : String) : ℕ :=
  ((chipmapLookup name).map (·.1)).getD 0

/-- The mutable state of the system: the in-memory portmaps of the two
`I2C_Control` instances (`PC1`, `PC2`) and the cached `_poweron` flag of each
`Antenna` in `OUTPUTS`. -/
structure SysState where
  pc1 : Fin 16 → ℕ
  pc2 : Fin 16 → ℕ
  poweron : String → Bool

/-- The state right after `init()`: both expanders reset to all-zero portmaps
and every antenna's `_poweron` flag `False`. -/
def initState : SysState :=
  { pc1 := fun _ => 0, pc2 := fun _ => 0, poweron := fun _ => false }

/-- A state with every output commanded on (used to exercise `turn_all_off`). -/
def fullState : SysState :=
  { pc1 := fun _ => 1, pc2 := fun _ => 1, poweron := fun _ => true }

/-- Model of `Antenna.turnon`: delegate to the owning `I2C_Control`'s `turnon` with this
output's `con_chan`, and set the cached `_poweron` flag only on success. -/
def antennaTurnon (busOK : Bool) (name : String) (st : SysState) :
    Bool × SysState :=
  match chipmapLookup name with
  | none => (false, st)    -- unreachable for names in OUTPUTS
  | some (con, _, _, _) =>
    if pcontrolOf name = 1 then
      let r := i2c_turnon busOK con st.pc1
      let pw := if r.1 then Function.update st.poweron name true else st.poweron
      (r.1, { st with pc1 := r.2, poweron := pw })
    else
      let r := i2c_turnon busOK con st.pc2
      let pw := if r.1 then Function.update st.poweron name true else st.poweron
      (r.1, { st with pc2 := r.2, poweron := pw })

/-- Model of `Antenna.turnoff`: delegate to the owning `I2C_Control`'s `turnoff`, and
clear the cached `_poweron` flag only on success. -/
def antennaTurnoff (busOK : Bool) (name : String) (st : SysState) :
    Bool × SysState :=
  match chipmapLookup name with
  | none => (false, st)    -- unreachable for names in OUTPUTS
  | some (con, _, _, _) =>
    if pcontrolOf name = 1 then
      let r := i2c_turnoff busOK con st.pc1
      let pw := if r.1 then Function.update st.poweron name false else st.poweron
      (r.1, { st with pc1 := r.2, poweron := pw })
    else
      let r := i2c_turnoff busOK con st.pc2
      let pw := if r.1 then Function.update st.poweron name false else st.poweron
      (r.1, { st with pc2 := r.2, poweron := pw })

/-- Model of `PyroHandler.turnon(anames)`: for each requested name, if its upper-cased
form is a key of `OUTPUTS` perform `Antenna.turnon` and append its result,
otherwise append `None`; invalid names never raise and never stop the loop.
The per-name oracle `busOK` gives the outcome of the I2C write performed for
that output. -/
def pyroTurnon (busOK : String → Bool) :
    List String → SysState → List (Option Bool) × SysState
  | [], st => ([], st)
  | a :: rest, st =>
    if (chipmapLookup (pyUpper a)).isSome then
      let r := antennaTurnon (busOK (pyUpper a)) (pyUpper a) st
      let rr := pyroTurnon busOK rest r.2
      (some r.1 :: rr.1, rr.2)
    else
      let rr := pyroTurnon busOK rest st
      (none :: rr.1, rr.2)

/-- Model of `PyroHandler.turnoff(anames)`: as `pyroTurnon`, but turning outputs off. -/
def pyroTurnoff (busOK : String → Bool) :
    List String → SysState → List (Option Bool) × SysState
  | [], st => ([], st)
  | a :: rest, st =>
    if (chipmapLookup (pyUpper a)).isSome then
      let r := antennaTurnoff (busOK (pyUpper a)) (pyUpper a) st
      let rr := pyroTurnoff busOK rest r.2
      (some r.1 :: rr.1, rr.2)
    else
      let rr := pyroTurnoff busOK rest st
      (none :: rr.1, rr.2)

/-- Model of `PyroHandler.ison(anames)`: one result slot per name; a valid name reports
the antenna's cached `_poweron` flag, an invalid name reports `None`. -/
def pyroIson : List String → SysState → List (Option Bool)
  | [], _ => []
  | a :: rest, st =>
    if (chipmapLookup (pyUpper a)).isSome then
      some (st.poweron (pyUpper a)) :: pyroIson rest st
    else
      none :: pyroIson rest st

/-- The accumulator loop of `turn_all_on()`: `allok` starts `True`, each
output is attempted in turn, and any failure clears `allok` without stopping
the iteration. -/
def turnAllOnGo (busOK : String → Bool) :
    List String → Bool → SysState → Bool × SysState
  | [], allok, st => (allok, st)
  | n :: rest, allok, st =>
    let r := antennaTurnon (busOK n) n st
    turnAllOnGo busOK rest (allok && r.1) r.2

/-- Model of `turn_all_on()` from `eda2.py`: iterate every output in `OUTPUTS` (fixed
registry order `A1 … D8`), attempting `turnon` on each, and return `True` only
if every individual operation succeeded. -/
def turn_all_on (busOK : String → Bool) (st : SysState) : Bool × SysState :=
  turnAllOnGo busOK allNames true st

/-- The accumulator loop of `turn_all_off()`. -/
def turnAllOffGo (busOK : String → Bool) :
    List String → Bool → SysState → Bool × SysState
  | [], allok, st => (allok, st)
  | n :: rest, allok, st =>
    let r := antennaTurnoff (busOK n) n st
    turnAllOffGo busOK rest (allok && r.1) r.2

/-- Model of `turn_all_off()` from `eda2.py`: iterate every output in registry order,
attempting `turnoff` on each, and return `True` only if every individual
operation succeeded. -/
def turn_all_off (busOK : String → Bool) (st : SysState) : Bool × SysState :=
  turnAllOffGo busOK allNames true st

/-- The `read_environment()` decode (lines 778–782 of `eda2.py`), applied to the 4
data bytes returned by the HIH7120: `h_raw = (data[0] & 63) * 256 + data[1]`,
`humidity = h_raw / 16382.0 * 100.0`, `t_raw = (data[2] * 256 + data[3]) // 4`,
`temperature = t_raw / 16382.0 * 165 - 40`.  The surrounding bus-error paths
return `None` in the source; this models the successful 4-byte read. -/
def read_environment (b0 b1 b2 b3 : ℕ) : ℚ × ℚ :=
  let h_raw : ℕ := (b0 &&& 63) * 256 + b1
  let humidity : ℚ := (h_raw : ℚ) / 16382.0 * 100.0
  let t_raw : ℕ := (b2 * 256 + b3) / 4
  let temperature : ℚ := (t_raw : ℚ) / 16382.0 * 165 - 40
  (humidity, temperature)

/-- The humidity formula exactly as the specification states it, over the spec's
named bytes: `((byte0 & 0x3F)*256 + byte1) / 16382 * 100`. -/
def spec_humidity (byte0 byte1 : ℕ) : ℚ :=
  (((byte0 &&& 63) * 256 + byte1 : ℕ) : ℚ) / 16382 * 100

/-- The temperature formula exactly as the specification states it, over the
spec's named bytes: `((byte0*256 + byte1) // 4) / 16382 * 165 - 40`. -/
def spec_temperature (byte0 byte1 : ℕ) : ℚ :=
  (((byte0 * 256 + byte1) / 4 : ℕ) : ℚ) / 16382 * 165 - 40

/-- One observable hardware operation on the measurement side: a GPIO write of
`level` to `pin`, an SPI transfer of a command frame, or the fixed settle
delay (`time.sleep`). -/
inductive BusOp where
  | gpio (pin level : ℕ)
  | spiXfer (cmd : List ℕ)
  | settle
  deriving DecidableEq, Repr

/-- The outcome of a Python call: a returned value, or an uncaught exception
propagating out of the call. -/
inductive PyResult (α : Type) where
  | ok (a : α)
  | exn
  deriving DecidableEq, Repr

/-- The argument passed to `ADC_Set._chip_select`: Python's `None`, an `int`,
a numeric value of another type (`float`, `long`, `bool` — `type(number) ==
int` is false but the `'%d'` logging format still accepts it), or a
non-numeric value (for which `'%d' % number` raises `TypeError`). -/
inductive ChipArg where
  | noneArg
  | intArg (n : ℤ)
  | numArg
  | otherArg
  deriving DecidableEq, Repr

/-- Model of `ADC_Set._chip_select(number)` (lines 290–331 of `eda2.py`),
returning the call's outcome together with the trace of GPIO operations it
performs.  `None` drives the decoder enable low.  An `int` in 0–7 drives
enable low, the three binary-encoded address lines to the bits of `number`
(A = bit 0), then enable high.  An out-of-range `int` or a non-`int` numeric
value is logged and rejected with `False`.  A non-numeric value reaches
`'Argument to chip_select must be None, or 0-7, not %d' % number` on line
330, which raises `TypeError` before `logger.error` or the `return False`
can run — the call raises instead of returning.  No GPIO operation is
performed on any rejected or raising path. -/
def chip_select : ChipArg → PyResult Bool × List BusOp
  | .noneArg => (.ok true, [.gpio CS_DECODE_ENABLE 0])
  | .intArg n =>
    if 0 ≤ n ∧ n ≤ 7 then
      (.ok true, [.gpio CS_DECODE_ENABLE 0,
                  .gpio CS_DECODE_A (n % 2).toNat,
                  .gpio CS_DECODE_B (n / 2 % 2).toNat,
                  .gpio CS_DECODE_C (n / 4 % 2).toNat,
                  .gpio CS_DECODE_ENABLE 1])
    else (.ok false, [])
  | .numArg => (.ok false, [])
  | .otherArg => (.exn, [])

/-- The 3-byte MCP3208 command frame built by `readADC` for a channel:
`cmd = [(0x6 | d2), (d1 << 7) | (d0 << 6), 0]` where `d2 d1 d0` are the three
low bits of `channel`. -/
def adcCommand (channel : ℕ) : List ℕ :=
  [6 ||| (channel / 4 % 2), ((channel / 2 % 2) <<< 7) ||| ((channel % 2) <<< 6), 0]

/-- Model of `ADC_Set.readADC(chipnum, channel)` (lines 333–353 of `eda2.py`):
select the chip, wait the settle delay, attempt the SPI transfer of the
command frame, and — only if the transfer returns — deselect and combine the
response bytes as `256 * (r[1] & 0b1111) + r[2]`.  `spiOK` models whether
`self.spi.xfer2(cmd)` returns (`true`) or raises (`false`); `r1`, `r2` are
response bytes 2 and 3 of a returning transfer.  The source has no
`try`/`finally`, so a raising transfer propagates out of the `with` block
before `self._chip_select(number=None)` is reached: the deselect is skipped.
Returns the call's outcome together with the full trace of bus operations. -/
def readADC (spiOK : Bool) (chipnum channel : ℕ) (r1 r2 : ℕ) :
    PyResult ℕ × List BusOp :=
  let sel := chip_select (.intArg chipnum)
  let attempt := sel.2 ++ [.settle, .spiXfer (adcCommand channel)]
  if spiOK then
    let desel := chip_select .noneArg
    (.ok (256 * (r1 &&& 15) + r2), attempt ++ desel.2)
  else
    (.exn, attempt)

/-- The writes to the decoder's enable line within a bus trace: the last one
tells whether a chip is still selected (level 1) afterwards. -/
def enableWrites (trace : List BusOp) : List BusOp :=
  trace.filter fun op =>
    match op with
    | .gpio pin _ => pin == CS_DECODE_ENABLE
    | _ => false

/-- Model of `Antenna.sense()`: read the voltage and current channels of this output's
MCP3208 chip and apply the fixed scaling `60.0 * v_raw / 4096.0` volts and
`i_raw / 4.096` milliamps; the state string reports the cached `_poweron`
flag.  `adc chip chan` is the raw 12-bit oracle for `ADCS.readADC`. -/
def antennaSense (adc : ℕ → ℕ → ℕ) (name : String) (st : SysState) :
    Option (String × ℚ × ℚ) :=
  match chipmapLookup name with
  | none => none
  | some (_, chipnum, v_chan, i_chan) =>
    let v_raw := adc chipnum v_chan
    let i_raw := adc chipnum i_chan
    let pstate := if st.poweron name then "ON" else "OFF"
    some (pstate, 60.0 * (v_raw : ℚ) / 4096.0, (i_raw : ℚ) / 4.096)

end Eda2

namespace Nagios

/-- Threshold constant from `eda2-nagios.py` (`TEMP_CRIT = 80.0`; the float
literal is the exact rational 80). -/
def TEMP_CRIT : ℚ := 80

/-- Temperature warning threshold (`TEMP_WARN = 70.0`). -/
def TEMP_WARN : ℚ := 70

/-- Humidity critical threshold (`HUMID_CRIT = 95.0`). -/
def HUMID_CRIT : ℚ := 95

/-- Humidity warning threshold (`HUMID_WARN = 90.0`). -/
def HUMID_WARN : ℚ := 90

/-- The per-channel power sub-result of `main` in `eda2-nagios.py`: with no
power map (or a falsy one) `p_res = 3`; with a power map present, the loop
over the 32 names sets `p_res = 1` if any name is absent or maps to a falsy
value, and leaves `p_res = 0` otherwise.  A channel entry is `some (pstate,
volts, milliamps)` when `(name in powers) and powers[name]` is truthy. -/
def p_res (powers : Option (String → Option (String × ℚ × ℚ))) : ℕ :=
  match powers with
  | none => 3
  | some f => if Eda2.allNames.all (fun n => (f n).isSome) then 0 else 1

/-- The temperature sub-result of `main`: 2 above `TEMP_CRIT`, 1 above
`TEMP_WARN`, 3 when the environment data is missing, 0 otherwise. -/
def t_res (env_data : Option (ℚ × ℚ)) : ℕ :=
  match env_data with
  | none => 3
  | some (_, temperature) =>
    if temperature > TEMP_CRIT then 2
    else if temperature > TEMP_WARN then 1
    else 0

/-- The humidity sub-result of `main` (the tuple is `(humidity, temperature)`). -/
def h_res (env_data : Option (ℚ × ℚ)) : ℕ :=
  match env_data with
  | none => 3
  | some (humidity, _) =>
    if humidity > HUMID_CRIT then 2
    else if humidity > HUMID_WARN then 1
    else 0

/-- The overall severity computed at the end of `main` (lines 80–93 of
`eda2-nagios.py`): any sub-result 2 gives CRITICAL (2); else any 3 gives
UNKNOWN (3); else any 1 gives WARNING (1); else OK (0). -/
def nagios_main (powers : Option (String → Option (String × ℚ × ℚ)))
    (env_data : Option (ℚ × ℚ)) : ℕ :=
  let p := p_res powers
  let t := t_res env_data
  let h := h_res env_data
  if p = 2 ∨ t = 2 ∨ h = 2 then 2
  else if p = 3 ∨ t = 3 ∨ h = 3 then 3
  else if p = 1 ∨ t = 1 ∨ h = 1 then 1
  else 0

/-- A concrete power map in which every channel except `A1` has data. -/
def powersMissingA1 : String → Option (String × ℚ × ℚ) :=
  fun n => if n = "A1" then none else some ("ON", 48, 50)

end Nagios

namespace Eda2cmd

/-- Python's substring test `needle in haystack`, on the character lists of the
two strings (the empty needle is contained in every string). -/
def containsSub (needle : List Char) : List Char → Bool
  | [] => needle.isEmpty
  | c :: rest => needle.isPrefixOf (c :: rest) || containsSub needle rest

/-- Python's `str.isdigit()` for ASCII strings: nonempty and all digits. -/
def isDigits (s : String) : Bool :=
  !s.data.isEmpty && s.data.all Char.isDigit

/-- Python's `int()` on a string of decimal digits (only applied under an
`isdigit` guard in the source). -/
def pyInt (s : String) : ℕ :=
  s.data.foldl (fun acc c => acc * 10 + (c.toNat - '0'.toNat)) 0

/-- Code-point comparison of two characters. -/
def charLe (a b : Char) : Bool := a.toNat ≤ b.toNat

/-- Lexicographic code-point order on character lists, Python's `<=` on
ASCII strings. -/
def lexLe : List Char → List Char → Bool
  | [], _ => true
  | _ :: _, [] => false
  | a :: as, b :: bs => if a = b then lexLe as bs else charLe a b

/-- Python's `<=` on strings. -/
def strLe (a b : String) : Bool := lexLe a.data b.data

/-- Insert a name into an already-sorted list (ascending `strLe`). -/
def insertSorted (x : String) : List String → List String
  | [] => [x]
  | y :: ys => if strLe x y then x :: y :: ys else y :: insertSorted x ys

/-- Ascending sort of a name list — the effect of Python's `list.sort()` on
the (duplicate-free, totally ordered) name lists built here. -/
def sortNames (l : List String) : List String := l.foldr insertSorted []

/-- The static `NMAP` tile table of `eda2cmd.py` (lines 87–102): tile number
1–16 to its pair of output names. -/
def NMAP : List (ℕ × List String) :=
  [(1, ["C5", "C6"]), (2, ["D5", "D6"]), (3, ["A7", "A8"]), (4, ["A3", "A4"]),
   (5, ["A1", "A2"]), (6, ["B7", "B8"]), (7, ["C1", "C2"]), (8, ["B3", "B4"]),
   (9, ["B1", "B2"]), (10, ["C3", "C4"]), (11, ["D1", "D2"]), (12, ["C7", "C8"]),
   (13, ["D3", "D4"]), (14, ["D7", "D8"]), (15, ["A5", "A6"]), (16, ["B5", "B6"])]

/-- Lookup `NMAP[n]`. -/
def nmapLookup (n : ℕ) : List String :=
  ((NMAP.find? (fun e => e.1 == n)).map (·.2)).getD []

/-- The expansion of `'ALL'`: `for letter in 'ABCD': for digit in '12345678'`. -/
def all32 : List String :=
  ["A", "B", "C", "D"].flatMap fun l =>
    ["1", "2", "3", "4", "5", "6", "7", "8"].map fun d => l ++ d

/-- One iteration of the argument-expansion loop of `eda2cmd.py` (lines
151–175): strip a leading `-` (remembering it as the exclusion flag), then
expand the remaining name spec — a token contained in `'ABCD'` becomes that
bank's eight names, a two-character `[A-Da-d][1-8]` token becomes itself
upper-cased, a numeric token 1–16 becomes its `NMAP` pair, `'ALL'` becomes all
32 names, and anything else expands to nothing.  Returns the exclusion flag
and the expanded names. -/
def expandArg (arg : String) : Bool × List String :=
  let subflag := strStartsWith arg "-"
  let namespec := if subflag then strDrop arg 1 else arg
  let thesenames : List String :=
    if containsSub (pyUpper namespec).toList "ABCD".toList then
      ["1", "2", "3", "4", "5", "6", "7", "8"].map fun d => (pyUpper namespec) ++ d
    else if (match namespec.toList with
             | [c0, c1] => "ABCDabcd".toList.contains c0 &&
                           "12345678".toList.contains c1
             | _ => false) then
      [(pyUpper namespec)]
    else if isDigits namespec && 1 ≤ pyInt namespec && pyInt namespec ≤ 16 then
      nmapLookup (pyInt namespec)
    else if (pyUpper namespec) = "ALL" then
      all32
    else []
  (subflag, thesenames)

/-- The whole expansion loop: accumulate each argument's expansion into the
include or exclude list, in argument order. -/
def expandArgs : List String → List String × List String
  | [] => ([], [])
  | arg :: rest =>
    let r := expandArg arg
    let acc := expandArgs rest
    if r.1 then (acc.1, r.2 ++ acc.2) else (r.2 ++ acc.1, acc.2)

/-- The final name list of `eda2cmd.py`:
`onames = [x for x in includenames if x not in excludenames]; onames.sort()`. -/
def onames (args : List String) : List String :=
  let r := expandArgs args
  sortNames (r.1.filter (fun x => !(r.2.contains x)))

end Eda2cmd

/-! ## Shared helper lemmas -/

namespace Eda2

/-- Every `CHIPMAP` entry carries a control-bit position in 1–16. -/
theorem chipmap_con_range : ∀ e ∈ CHIPMAP, 1 ≤ e.2.1 ∧ e.2.1 ≤ 16 := by decide

/-- A successful `CHIPMAP` lookup yields an in-range control-bit position. -/
theorem chipmapLookup_con_range {name : String} {con cn vc ic : ℕ}
    (h : chipmapLookup name = some (con, cn, vc, ic)) : 1 ≤ con ∧ con ≤ 16 := by
  simp only [chipmapLookup, Option.map_eq_some'] at h
  obtain ⟨e, hfind, he2⟩ := h
  have hmem := List.mem_of_find?_eq_some hfind
  have hr := chipmap_con_range e hmem
  rw [he2] at hr
  exact hr

/-- An in-range `I2C_Control.turnon` returns exactly the success flag of the
underlying register write. -/
theorem i2c_turnon_fst (b : Bool) (ch : ℕ) (pm : Fin 16 → ℕ)
    (h1 : 1 ≤ ch) (h16 : ch ≤ 16) : (i2c_turnon b ch pm).1 = b := by
  unfold i2c_turnon
  rw [dif_neg (by omega : ¬(ch < 1 ∨ 16 < ch))]
  rfl

/-- An in-range `I2C_Control.turnoff` returns exactly the success flag of the
underlying register write. -/
theorem i2c_turnoff_fst (b : Bool) (ch : ℕ) (pm : Fin 16 → ℕ)
    (h1 : 1 ≤ ch) (h16 : ch ≤ 16) : (i2c_turnoff b ch pm).1 = b := by
  unfold i2c_turnoff
  rw [dif_neg (by omega : ¬(ch < 1 ∨ 16 < ch))]
  rfl

/-- For an output name present in `CHIPMAP`, `Antenna.turnon` returns exactly
the success flag of the underlying I2C register write. -/
theorem antennaTurnon_fst (b : Bool) (name : String) (st : SysState)
    (h : (chipmapLookup name).isSome = true) : (antennaTurnon b name st).1 = b := by
  obtain ⟨v, hl⟩ := Option.isSome_iff_exists.mp h
  obtain ⟨con, cn, vc, ic⟩ := v
  obtain ⟨h1, h16⟩ := chipmapLookup_con_range hl
  by_cases hp : pcontrolOf name = 1 <;>
    simp [antennaTurnon, hl, hp, i2c_turnon_fst _ _ _ h1 h16]

/-- For an output name present in `CHIPMAP`, `Antenna.turnoff` returns exactly
the success flag of the underlying I2C register write. -/
theorem antennaTurnoff_fst (b : Bool) (name : String) (st : SysState)
    (h : (chipmapLookup name).isSome = true) : (antennaTurnoff b name st).1 = b := by
  obtain ⟨v, hl⟩ := Option.isSome_iff_exists.mp h
  obtain ⟨con, cn, vc, ic⟩ := v
  obtain ⟨h1, h16⟩ := chipmapLookup_con_range hl
  by_cases hp : pcontrolOf name = 1 <;>
    simp [antennaTurnoff, hl, hp, i2c_turnoff_fst _ _ _ h1 h16]

/-- Frame property: `I2C_Control.turnon` leaves every portmap bit other than `channel - 1`
unchanged. -/
theorem i2c_turnon_frame (b : Bool) (ch : ℕ) (pm : Fin 16 → ℕ) (i : Fin 16)
    (h : (i : ℕ) ≠ ch - 1) : (i2c_turnon b ch pm).2 i = pm i := by
  unfold i2c_turnon
  split
  · rfl
  · exact Function.update_noteq (Fin.ne_of_val_ne h) _ _

end Eda2

/-! ## Claim theorems -/

/-- C1: the claim (and spec §4.3) says a failed register write must leave the
in-memory `portmap` equal to its pre-call value.  The source
(`I2C_Control.turnon`, `eda2.py` lines 411–430) updates `portmap` before
calling `_write_outputs` and performs no rollback when that write fails: with
an all-zero portmap, `turnon(1)` under a failing bus returns `False` yet
leaves bit 1 set, and likewise `turnoff(2)` under a failing bus leaves bit 2
cleared from an all-ones portmap. -/
theorem c1_no_rollback_on_failed_write :
    (Eda2.i2c_turnon false 1 Eda2.initState.pc1).1 = false ∧
    (Eda2.i2c_turnon false 1 Eda2.initState.pc1).2 0 = 1 ∧
    Eda2.initState.pc1 0 = 0 ∧
    (Eda2.i2c_turnoff false 2 Eda2.fullState.pc1).1 = false ∧
    (Eda2.i2c_turnoff false 2 Eda2.fullState.pc1).2 1 = 0 ∧
    Eda2.fullState.pc1 1 = 1 := by
  decide

/-- C3 counterexample: the claim computes the temperature raw value from
`byte0` and `byte1`, but on the 4-byte read `(0, 0, 100, 0)` the source's
`read_environment` returns a temperature different from the spec's
byte0/byte1 formula (the code uses the dedicated temperature bytes 2 and 3). -/
theorem c3_counterexample :
    (Eda2.read_environment 0 0 100 0).2 ≠ Eda2.spec_temperature 0 0 := by
  norm_num [Eda2.read_environment, Eda2.spec_temperature]

/-- C3 (amended): for every successful 4-byte read, `read_environment` returns
humidity `((byte0 & 0x3F)*256 + byte1) / 16382 * 100` — exactly the spec's
humidity formula on bytes 0 and 1 — and temperature
`((byte2*256 + byte3) // 4) / 16382 * 165 - 40`, i.e. the spec's temperature
formula applied to the dedicated data bytes 2 and 3, not to bytes 0 and 1. -/
theorem c3_decode_formulas :
    ∀ b0 b1 b2 b3 : ℕ,
      Eda2.read_environment b0 b1 b2 b3 =
        (Eda2.spec_humidity b0 b1, Eda2.spec_temperature b2 b3) := by
  intro b0 b1 b2 b3
  unfold Eda2.read_environment Eda2.spec_humidity Eda2.spec_temperature
  norm_num

/-- C6: a successful `Antenna.sense` scales the raw 12-bit readings of this
output's voltage and current ADC channels as `60.0 * raw / 4096.0` volts and
`raw / 4.096` milliamps; in particular a raw value of 4096 on both channels
yields exactly 60 V and 1000 mA. -/
theorem c6_sense_scaling :
    (∀ (adc : ℕ → ℕ → ℕ) (st : Eda2.SysState) (name : String)
        (con cn vc ic : ℕ),
      Eda2.chipmapLookup name = some (con, cn, vc, ic) →
      Eda2.antennaSense adc name st =
        some ((if st.poweron name then "ON" else "OFF"),
              60.0 * (adc cn vc : ℚ) / 4096.0, (adc cn ic : ℚ) / 4.096)) ∧
    (∀ (st : Eda2.SysState) (name : String) (con cn vc ic : ℕ),
      Eda2.chipmapLookup name = some (con, cn, vc, ic) →
      Eda2.antennaSense (fun _ _ => 4096) name st =
        some ((if st.poweron name then "ON" else "OFF"), 60, 1000)) := by
  constructor
  · intro adc st name con cn vc ic h
    simp [Eda2.antennaSense, h]
  · intro st name con cn vc ic h
    simp only [Eda2.antennaSense, h]
    norm_num

/-- C6 witness: `sense` on output `A1` (chip 7, channels 0 and 1) with both
raw readings equal to 4096 reports 60 V and 1000 mA. -/
theorem c6_sense_scaling_witness :
    Eda2.antennaSense (fun _ _ => 4096) "A1" Eda2.initState =
      some ("OFF", (60 : ℚ), (1000 : ℚ)) := by
  simpa using c6_sense_scaling.2 Eda2.initState "A1" 10 7 0 1 rfl

/-- C8 counterexample: the claim says every non-`None` argument outside the
`int` range 0–7 makes `_chip_select` return failure.  A non-numeric argument
instead raises `TypeError` from the `'%d'` logging format on line 330 — the
call returns nothing at all (though it still performs no GPIO operation). -/
theorem c8_counterexample :
    (Eda2.chip_select Eda2.ChipArg.otherArg).1 ≠ Eda2.PyResult.ok false ∧
    (Eda2.chip_select Eda2.ChipArg.otherArg).1 = Eda2.PyResult.exn ∧
    (Eda2.chip_select Eda2.ChipArg.otherArg).2 = [] := by
  decide

/-- C8 (amended): for every argument that is not Python's `None` and not an
`int` in 0–7, `_chip_select` performs no GPIO operation at all; it returns
`False` for an out-of-range `int` and for a non-`int` numeric value, but for
a non-numeric value it raises `TypeError` (from the `'%d'` log format)
instead of returning failure. -/
theorem c8_chip_select_reject :
    ∀ a : Eda2.ChipArg, a ≠ Eda2.ChipArg.noneArg →
      (∀ n : ℤ, a = Eda2.ChipArg.intArg n → n < 0 ∨ 7 < n) →
      (Eda2.chip_select a).2 = [] ∧
      (Eda2.chip_select a).1 =
        (if a = Eda2.ChipArg.otherArg then Eda2.PyResult.exn
         else Eda2.PyResult.ok false) := by
  intro a hnone hint
  cases a with
  | noneArg => exact absurd rfl hnone
  | intArg n =>
    have hn := hint n rfl
    have : ¬(0 ≤ n ∧ n ≤ 7) := by omega
    simp [Eda2.chip_select, this]
  | numArg => exact ⟨rfl, by decide⟩
  | otherArg => exact ⟨rfl, by decide⟩

/-- C8 witness: chip index 8 is rejected with an empty GPIO trace and a
`False` return. -/
theorem c8_chip_select_reject_witness :
    (Eda2.chip_select (Eda2.ChipArg.intArg 8)).2 = [] ∧
    (Eda2.chip_select (Eda2.ChipArg.intArg 8)).1 = Eda2.PyResult.ok false := by
  have h := c8_chip_select_reject (Eda2.ChipArg.intArg 8) (by decide)
    (fun n hn => by cases hn; decide)
  simpa using h

/-- C10 counterexample: the claim says every `readADC` call ends by
deselecting the multiplexer.  When the SPI transfer raises (chip 3,
channel 5 here), the exception propagates before `_chip_select(number=None)`
runs: the trace does not end with the enable-low deselect, and the last write
to the decoder enable line leaves it high — the chip stays selected. -/
theorem c10_counterexample :
    (Eda2.readADC false 3 5 0 0).1 = Eda2.PyResult.exn ∧
    (Eda2.readADC false 3 5 0 0).2.getLast? ≠
      some (Eda2.BusOp.gpio Eda2.CS_DECODE_ENABLE 0) ∧
    (Eda2.enableWrites (Eda2.readADC false 3 5 0 0).2).getLast? =
      some (Eda2.BusOp.gpio Eda2.CS_DECODE_ENABLE 1) := by
  decide

/-- C10 (amended): a `readADC` call whose SPI transfer returns emits its bus
operations as select / settle / SPI transfer / deselect and always ends with
the deselect (driving the 74X138 enable line low).  But the source has no
`try`/`finally`: when `spi.xfer2` raises, the call propagates the exception
without ever reaching `_chip_select(number=None)`, so the last write to the
decoder enable line is the select's enable-high and the addressed chip
remains selected. -/
theorem c10_readADC_deselects :
    ∀ (spiOK : Bool) (chipnum channel r1 r2 : ℕ),
      (spiOK = true →
        (Eda2.readADC spiOK chipnum channel r1 r2).2 =
          (Eda2.chip_select (Eda2.ChipArg.intArg chipnum)).2 ++
            [Eda2.BusOp.settle, Eda2.BusOp.spiXfer (Eda2.adcCommand channel)] ++
            [Eda2.BusOp.gpio Eda2.CS_DECODE_ENABLE 0] ∧
        (Eda2.readADC spiOK chipnum channel r1 r2).2.getLast? =
          some (Eda2.BusOp.gpio Eda2.CS_DECODE_ENABLE 0)) ∧
      (spiOK = false →
        (Eda2.readADC spiOK chipnum channel r1 r2).1 = Eda2.PyResult.exn ∧
        (Eda2.readADC spiOK chipnum channel r1 r2).2 =
          (Eda2.chip_select (Eda2.ChipArg.intArg chipnum)).2 ++
            [Eda2.BusOp.settle, Eda2.BusOp.spiXfer (Eda2.adcCommand channel)] ∧
        (Eda2.readADC spiOK chipnum channel r1 r2).2.getLast? =
          some (Eda2.BusOp.spiXfer (Eda2.adcCommand channel)) ∧
        (chipnum ≤ 7 →
          (Eda2.enableWrites (Eda2.readADC spiOK chipnum channel r1 r2).2).getLast? =
            some (Eda2.BusOp.gpio Eda2.CS_DECODE_ENABLE 1))) := by
  intro spiOK chipnum channel r1 r2
  constructor
  · intro hok
    subst hok
    refine ⟨rfl, ?_⟩
    show ((Eda2.chip_select (Eda2.ChipArg.intArg chipnum)).2 ++
        [Eda2.BusOp.settle, Eda2.BusOp.spiXfer (Eda2.adcCommand channel)] ++
        [Eda2.BusOp.gpio Eda2.CS_DECODE_ENABLE 0]).getLast? = _
    exact List.getLast?_concat _
  · intro hbad
    subst hbad
    refine ⟨rfl, rfl, ?_, ?_⟩
    · show ((Eda2.chip_select (Eda2.ChipArg.intArg chipnum)).2 ++
          ([Eda2.BusOp.settle] ++ [Eda2.BusOp.spiXfer (Eda2.adcCommand channel)])).getLast? = _
      rw [← List.append_assoc]
      exact List.getLast?_concat _
    · intro hchip
      have hc : 0 ≤ (chipnum : ℤ) ∧ (chipnum : ℤ) ≤ 7 :=
        ⟨Int.ofNat_nonneg _, by exact_mod_cast hchip⟩
      simp [Eda2.readADC, Eda2.chip_select, hc, Eda2.enableWrites,
        Eda2.CS_DECODE_A, Eda2.CS_DECODE_B, Eda2.CS_DECODE_C,
        Eda2.CS_DECODE_ENABLE, List.filter]

/-- C2 counterexample: with the power map present but channel `A1` missing
data, a normal environment reading `(humidity 50, temperature 25)` makes
`main` return severity 1 (WARNING), not 3 (UNKNOWN); and a hot environment
reading `(50, 85)` makes it return 2 (CRITICAL) — so the overall severity is
neither UNKNOWN nor independent of the environment reading. -/
theorem c2_counterexample :
    Nagios.nagios_main (some Nagios.powersMissingA1) (some (50, 25)) = 1 ∧
    Nagios.nagios_main (some Nagios.powersMissingA1) (some (50, 85)) = 2 := by
  decide

/-- C2 (amended): when the power map is present but at least one of the 32
channel names has missing or falsy power data, the power sub-result is
WARNING, so the overall severity is 1 (WARNING) — not UNKNOWN — whenever the
environment reading is present with temperature at most the 70 °C warning
threshold and humidity at most the 90 % warning threshold; a hotter or damper
environment raises the severity instead. -/
theorem c2_missing_channel_warning :
    ∀ (f : String → Option (String × ℚ × ℚ)) (humidity temperature : ℚ),
      (Eda2.allNames.all fun n => (f n).isSome) = false →
      temperature ≤ Nagios.TEMP_WARN → humidity ≤ Nagios.HUMID_WARN →
      Nagios.nagios_main (some f) (some (humidity, temperature)) = 1 := by
  intro f humidity temperature hmiss ht hh
  have ht2 : ¬(temperature > Nagios.TEMP_CRIT) := by
    rw [Nagios.TEMP_CRIT]; rw [Nagios.TEMP_WARN] at ht; linarith
  have ht1 : ¬(temperature > Nagios.TEMP_WARN) := by linarith
  have hh2 : ¬(humidity > Nagios.HUMID_CRIT) := by
    rw [Nagios.HUMID_CRIT]; rw [Nagios.HUMID_WARN] at hh; linarith
  have hh1 : ¬(humidity > Nagios.HUMID_WARN) := by linarith
  simp [Nagios.nagios_main, Nagios.p_res, Nagios.t_res, Nagios.h_res,
    hmiss, ht2, ht1, hh2, hh1]

/-- C2 witness: the amended statement at the concrete snapshot missing `A1`
with environment `(humidity 60, temperature 30)`. -/
theorem c2_missing_channel_warning_witness :
    Nagios.nagios_main (some Nagios.powersMissingA1) (some (60, 30)) = 1 :=
  c2_missing_channel_warning Nagios.powersMissingA1 60 30 (by decide)
    (by decide) (by decide)

/-- The result list of `PyroHandler.turnon` is the pointwise image of the
requested names: one slot per name, `None` exactly at invalid names. -/
theorem pyroTurnon_map (busOK : String → Bool) (anames : List String) :
    ∀ st : Eda2.SysState,
      (Eda2.pyroTurnon busOK anames st).1 =
        anames.map (fun a => if (Eda2.chipmapLookup (pyUpper a)).isSome
                             then some (busOK (pyUpper a)) else none) := by
  induction anames with
  | nil => intro st; simp [Eda2.pyroTurnon]
  | cons a rest ih =>
    intro st
    by_cases hv : (Eda2.chipmapLookup (pyUpper a)).isSome = true
    · simp [Eda2.pyroTurnon, hv, Eda2.antennaTurnon_fst _ _ _ hv, ih]
    · simp [Eda2.pyroTurnon, hv, ih]

/-- The result list of `PyroHandler.turnoff` is the pointwise image of the
requested names. -/
theorem pyroTurnoff_map (busOK : String → Bool) (anames : List String) :
    ∀ st : Eda2.SysState,
      (Eda2.pyroTurnoff busOK anames st).1 =
        anames.map (fun a => if (Eda2.chipmapLookup (pyUpper a)).isSome
                             then some (busOK (pyUpper a)) else none) := by
  induction anames with
  | nil => intro st; simp [Eda2.pyroTurnoff]
  | cons a rest ih =>
    intro st
    by_cases hv : (Eda2.chipmapLookup (pyUpper a)).isSome = true
    · simp [Eda2.pyroTurnoff, hv, Eda2.antennaTurnoff_fst _ _ _ hv, ih]
    · simp [Eda2.pyroTurnoff, hv, ih]

/-- The result list of `PyroHandler.ison` is the pointwise image of the
requested names. -/
theorem pyroIson_map (anames : List String) (st : Eda2.SysState) :
    Eda2.pyroIson anames st =
      anames.map (fun a => if (Eda2.chipmapLookup (pyUpper a)).isSome
                           then some (st.poweron (pyUpper a)) else none) := by
  induction anames with
  | nil => simp [Eda2.pyroIson]
  | cons a rest ih =>
    by_cases hv : (Eda2.chipmapLookup (pyUpper a)).isSome = true
    · simp [Eda2.pyroIson, hv, ih]
    · simp [Eda2.pyroIson, hv, ih]

/-- C4: the RPC bulk operations `turnon` / `turnoff` / `ison` return exactly
one result per requested name, in the same order: the i-th slot is the i-th
name's own outcome, `None` exactly when that name (upper-cased) is not a
valid output, and an invalid name neither raises nor prevents the remaining
names from being processed.  In particular `turnon(["A1","Z9"])` on a healthy
bus yields `[True, None]`. -/
theorem c4_bulk_positional :
    (∀ (busOK : String → Bool) (anames : List String) (st : Eda2.SysState),
      (Eda2.pyroTurnon busOK anames st).1 =
        anames.map (fun a => if (Eda2.chipmapLookup (pyUpper a)).isSome
                             then some (busOK (pyUpper a)) else none)) ∧
    (∀ (busOK : String → Bool) (anames : List String) (st : Eda2.SysState),
      (Eda2.pyroTurnoff busOK anames st).1 =
        anames.map (fun a => if (Eda2.chipmapLookup (pyUpper a)).isSome
                             then some (busOK (pyUpper a)) else none)) ∧
    (∀ (anames : List String) (st : Eda2.SysState),
      Eda2.pyroIson anames st =
        anames.map (fun a => if (Eda2.chipmapLookup (pyUpper a)).isSome
                             then some (st.poweron (pyUpper a)) else none)) ∧
    (Eda2.pyroTurnon (fun _ => true) ["A1", "Z9"] Eda2.initState).1 =
      [some true, none] := by
  refine ⟨fun b an st => pyroTurnon_map b an st,
          fun b an st => pyroTurnoff_map b an st,
          fun an st => pyroIson_map an st, ?_⟩
  decide

/-- The loop of `turn_all_on` computes the conjunction of the accumulator with
every per-output write result, attempting every output. -/
theorem turnAllOnGo_fst (busOK : String → Bool) :
    ∀ (names : List String),
      (∀ n ∈ names, (Eda2.chipmapLookup n).isSome = true) →
      ∀ (acc : Bool) (st : Eda2.SysState),
        (Eda2.turnAllOnGo busOK names acc st).1 = (acc && names.all busOK) := by
  intro names
  induction names with
  | nil => intro _ acc st; simp [Eda2.turnAllOnGo]
  | cons n rest ih =>
    intro hall acc st
    have hn := hall n (by simp)
    have hrest : ∀ m ∈ rest, (Eda2.chipmapLookup m).isSome = true :=
      fun m hm => hall m (by simp [hm])
    simp [Eda2.turnAllOnGo, Eda2.antennaTurnon_fst _ _ _ hn, ih hrest,
      Bool.and_assoc]

/-- The loop of `turn_all_off` computes the conjunction of the accumulator
with every per-output write result, attempting every output. -/
theorem turnAllOffGo_fst (busOK : String → Bool) :
    ∀ (names : List String),
      (∀ n ∈ names, (Eda2.chipmapLookup n).isSome = true) →
      ∀ (acc : Bool) (st : Eda2.SysState),
        (Eda2.turnAllOffGo busOK names acc st).1 = (acc && names.all busOK) := by
  intro names
  induction names with
  | nil => intro _ acc st; simp [Eda2.turnAllOffGo]
  | cons n rest ih =>
    intro hall acc st
    have hn := hall n (by simp)
    have hrest : ∀ m ∈ rest, (Eda2.chipmapLookup m).isSome = true :=
      fun m hm => hall m (by simp [hm])
    simp [Eda2.turnAllOffGo, Eda2.antennaTurnoff_fst _ _ _ hn, ih hrest,
      Bool.and_assoc]

/-- C7: `turn_all_on()` and `turn_all_off()` iterate the registry in its fixed
order (the 32 distinct names `A1 … D8`), return `True` exactly when every
individual per-output operation succeeded, and never stop at a failure: even
when every register write fails, every one of the 32 outputs is still
attempted — every bit of both expander portmaps gets (re)written. -/
theorem c7_turn_all :
    (∀ (busOK : String → Bool) (st : Eda2.SysState),
      (Eda2.turn_all_on busOK st).1 = Eda2.allNames.all busOK) ∧
    (∀ (busOK : String → Bool) (st : Eda2.SysState),
      (Eda2.turn_all_off busOK st).1 = Eda2.allNames.all busOK) ∧
    Eda2.allNames.length = 32 ∧ Eda2.allNames.Nodup ∧
    (∀ i : Fin 16,
      (Eda2.turn_all_on (fun _ => false) Eda2.initState).2.pc1 i = 1 ∧
      (Eda2.turn_all_on (fun _ => false) Eda2.initState).2.pc2 i = 1) ∧
    (∀ i : Fin 16,
      (Eda2.turn_all_off (fun _ => false) Eda2.fullState).2.pc1 i = 0 ∧
      (Eda2.turn_all_off (fun _ => false) Eda2.fullState).2.pc2 i = 0) := by
  have hvalid : ∀ n ∈ Eda2.allNames, (Eda2.chipmapLookup n).isSome = true := by
    decide
  refine ⟨fun busOK st => ?_, fun busOK st => ?_, by decide, by decide,
          by decide, by decide⟩
  · rw [Eda2.turn_all_on, turnAllOnGo_fst busOK Eda2.allNames hvalid]
    simp
  · rw [Eda2.turn_all_off, turnAllOffGo_fst busOK Eda2.allNames hvalid]
    simp

/-- Membership is preserved by sorted insertion. -/
theorem mem_insertSorted (y : String) :
    ∀ (l : List String) (x : String),
      x ∈ Eda2cmd.insertSorted y l ↔ x = y ∨ x ∈ l := by
  intro l
  induction l with
  | nil => intro x; simp [Eda2cmd.insertSorted]
  | cons z zs ih =>
    intro x
    by_cases h : Eda2cmd.strLe y z = true
    · simp [Eda2cmd.insertSorted, h]
    · simp [Eda2cmd.insertSorted, h, ih]
      tauto

/-- Sorting does not change membership. -/
theorem mem_sortNames (l : List String) (x : String) :
    x ∈ Eda2cmd.sortNames l ↔ x ∈ l := by
  induction l with
  | nil => simp [Eda2cmd.sortNames]
  | cons z zs ih =>
    simp only [Eda2cmd.sortNames, List.foldr_cons] at *
    rw [mem_insertSorted, ih]
    simp

/-- C5: command-line name expansion — a bare bank letter expands to its 8
two-character names, `ALL` to all 32 names, a numeric token 1–16 to the fixed
pair of the static `NMAP` tile table (`3` to `[A7, A8]`), a leading `-` marks
the expansion as an exclusion, and the final selection contains exactly the
names included by some argument and excluded by none, with the exclusions
applied after all inclusions have been gathered (argument order between an
inclusion and an exclusion does not matter). -/
theorem c5_name_expansion :
    Eda2cmd.expandArg "B" =
      (false, ["B1", "B2", "B3", "B4", "B5", "B6", "B7", "B8"]) ∧
    Eda2cmd.expandArg "ALL" = (false, Eda2cmd.all32) ∧
    Eda2cmd.all32.length = 32 ∧
    ((List.range 16).all fun k =>
      Eda2cmd.expandArg (toString (k + 1)) ==
        (false, Eda2cmd.nmapLookup (k + 1))) = true ∧
    Eda2cmd.expandArg "3" = (false, ["A7", "A8"]) ∧
    Eda2cmd.expandArg "-C3" = (true, ["C3"]) ∧
    (∀ (args : List String) (x : String),
      x ∈ Eda2cmd.onames args ↔
        x ∈ (Eda2cmd.expandArgs args).1 ∧ x ∉ (Eda2cmd.expandArgs args).2) ∧
    Eda2cmd.onames ["ALL", "-C3"] = Eda2cmd.all32.filter (fun x => x ≠ "C3") ∧
    Eda2cmd.onames ["-C3", "ALL"] = Eda2cmd.onames ["ALL", "-C3"] := by
  refine ⟨by decide, by decide, by decide, by decide, by decide, by decide,
          ?_, by decide, by decide⟩
  intro args x
  rw [Eda2cmd.onames, mem_sortNames]
  simp [List.mem_filter, List.contains]

/-- C9: the static table and the constructor rule assign outputs to the two
expander chips by slot digit alone (digits 5–8 on chip instance 1, digits 1–4
on chip instance 2, for every bank letter), each output's control-bit
position lies in 1–16, no two outputs on the same chip share a control-bit
position, and consequently switching one output never changes the portmap bit
of any other output on the same chip. -/
theorem c9_partition :
    (∀ name ∈ Eda2.allNames,
      (Eda2.pcontrolOf name = 1 ↔
        5 ≤ Eda2.slotDigit name ∧ Eda2.slotDigit name ≤ 8) ∧
      (Eda2.pcontrolOf name = 2 ↔
        1 ≤ Eda2.slotDigit name ∧ Eda2.slotDigit name ≤ 4)) ∧
    (∀ name ∈ Eda2.allNames,
      1 ≤ Eda2.conChanD name ∧ Eda2.conChanD name ≤ 16) ∧
    (∀ a ∈ Eda2.allNames, ∀ c ∈ Eda2.allNames, a ≠ c →
      Eda2.pcontrolOf a = Eda2.pcontrolOf c →
      Eda2.conChanD a ≠ Eda2.conChanD c) ∧
    (∀ a ∈ Eda2.allNames, ∀ c ∈ Eda2.allNames, a ≠ c →
      Eda2.pcontrolOf a = Eda2.pcontrolOf c →
      ∀ (b : Bool) (pm : Fin 16 → ℕ) (i : Fin 16),
        (i : ℕ) + 1 = Eda2.conChanD c →
        (Eda2.i2c_turnon b (Eda2.conChanD a) pm).2 i = pm i) := by
  have h2 : ∀ name ∈ Eda2.allNames,
      1 ≤ Eda2.conChanD name ∧ Eda2.conChanD name ≤ 16 := by decide
  have h3 : ∀ a ∈ Eda2.allNames, ∀ c ∈ Eda2.allNames, a ≠ c →
      Eda2.pcontrolOf a = Eda2.pcontrolOf c →
      Eda2.conChanD a ≠ Eda2.conChanD c := by decide
  refine ⟨by decide, h2, h3, ?_⟩
  intro a ha c hc hne hp b pm i hi
  have hca := h2 a ha
  have hcc := h2 c hc
  have hne2 := h3 a ha c hc hne hp
  exact Eda2.i2c_turnon_frame b _ pm i (by omega)

/-- C9 witness: `A1` and `A2` share chip instance 2 with control bits 10 and
9; turning `A1` on leaves bit 9 (index 8) untouched. -/
theorem c9_partition_witness :
    (Eda2.i2c_turnon true (Eda2.conChanD "A1") (fun _ => (0 : ℕ))).2
      (8 : Fin 16) = 0 :=
  c9_partition.2.2.2 "A1" (by decide) "A2" (by decide) (by decide) (by decide)
    true _ 8 (by decide)
